import Mathlib

/-!
Shallow embedding of the simulation / acoustic-parameter core of
`src/components/SonicWorld.tsx` (echolocation audio simulator), together with
theorems settling the natural-language specification claims about it.

JavaScript `number` arithmetic is modelled by real arithmetic; comparisons on
reals are decided classically, so the geometric predicates are `Prop`-valued.
Every definition mirrors the corresponding source function; list loops with an
early `return true` are rendered as existential quantification over the list,
and loops that must all pass as universal statements, preserving the tested
condition verbatim.
-/

namespace SonicWorld

/-! ## Constants (source lines 79-86) -/

def WORLD_RADIUS_M : ℝ := 16
def PLAYER_RADIUS_M : ℝ := 0.45
def EMITTER_RADIUS_M : ℝ := 0.35
def CANVAS_SIZE : ℝ := 840
def MOVE_SPEED_MPS : ℝ := 2.75
def TURN_SPEED_DEG_PER_SEC : ℝ := 95
def SOUND_SPEED_MPS : ℝ := 343

/-! ## Data model (source lines 7-42) -/

inductive Waveform
  | sine
  | triangle
  | square
  | sawtooth
deriving DecidableEq

structure ListenerPose where
  x : ℝ
  z : ℝ
  headingDeg : ℝ

structure CollisionZone where
  id : String
  label : String
  x : ℝ
  z : ℝ
  radius : ℝ

structure Wall where
  id : String
  x : ℝ
  z : ℝ
  width : ℝ
  height : ℝ

structure SoundEmitter where
  id : String
  name : String
  x : ℝ
  z : ℝ
  y : ℝ
  frequency : ℝ
  gain : ℝ
  waveform : Waveform
  color : String
  moving : Bool
  vx : ℝ
  vz : ℝ

/-! ## Numeric helpers (source lines 148-186) -/

/-- Model of `Math.hypot(x, z)`. -/
noncomputable def hypot (x z : ℝ) : ℝ := Real.sqrt (x * x + z * z)

/-- Source `clamp(value, min, max) = Math.min(max, Math.max(min, value))` (line 148). -/
noncomputable def clamp (value lo hi : ℝ) : ℝ := min hi (max lo value)

open Classical in
/-- Truncation toward zero, the rounding used by the JavaScript `%` operator. -/
noncomputable def truncTowardZero (x : ℝ) : ℝ :=
  if 0 ≤ x then ((⌊x⌋ : ℤ) : ℝ) else ((⌈x⌉ : ℤ) : ℝ)

open Classical in
/-- Source `wrapDegrees` (line 152): JavaScript remainder by 360 then shift into `[0, 360)`. -/
noncomputable def wrapDegrees (value : ℝ) : ℝ :=
  let normalized := value - 360 * truncTowardZero (value / 360)
  if normalized < 0 then normalized + 360 else normalized

/-- Source `toRadians` (line 157). -/
noncomputable def toRadians (deg : ℝ) : ℝ := deg * Real.pi / 180

/-- Source `canvasToPoint` (lines 179-186): canvas pixel coordinates to world metres,
each coordinate clamped to `[-WORLD_RADIUS_M, WORLD_RADIUS_M]`. -/
noncomputable def canvasToPoint (x y canvasSize : ℝ) : ℝ × ℝ :=
  let radiusPx := canvasSize * 0.43
  let center := canvasSize / 2
  (clamp ((x - center) / radiusPx * WORLD_RADIUS_M) (-WORLD_RADIUS_M) WORLD_RADIUS_M,
   clamp ((y - center) / radiusPx * WORLD_RADIUS_M) (-WORLD_RADIUS_M) WORLD_RADIUS_M)

/-! ## CollisionResolver (source lines 188-227 and 285-310) -/

/-- Body of the zone loop of `collidesAt` (lines 291-295). -/
noncomputable def zoneBlocks (x z radius : ℝ) (zone : CollisionZone) : Prop :=
  hypot (x - zone.x) (z - zone.z) ≤ zone.radius + radius

/-- Body of the wall loop of `collidesAt` (lines 297-305): containment in the
axis-aligned rectangle expanded by `radius` on all sides. -/
def wallBlocks (x z radius : ℝ) (wall : Wall) : Prop :=
  let left := wall.x - wall.width / 2 - radius
  let right := wall.x + wall.width / 2 + radius
  let top := wall.z - wall.height / 2 - radius
  let bottom := wall.z + wall.height / 2 + radius
  left ≤ x ∧ x ≤ right ∧ top ≤ z ∧ z ≤ bottom

/-- Source `collidesAt` (lines 285-310): outside the world disk, or caught by the
zone loop, or caught by the wall loop (loops with early `return true`). -/
noncomputable def collidesAt (x z radius : ℝ)
    (zones : List CollisionZone) (walls : List Wall) : Prop :=
  hypot x z + radius > WORLD_RADIUS_M ∨
  (∃ zone ∈ zones, zoneBlocks x z radius zone) ∨
  (∃ wall ∈ walls, wallBlocks x z radius wall)

open Classical in
/-- Source `circleLineIntersection` (lines 188-209): closest-point-on-segment test,
with a point-in-circle fallback at endpoint `a` for near-degenerate segments. -/
noncomputable def circleLineIntersection (ax az bx bz cx cz radius : ℝ) : Prop :=
  let abx := bx - ax
  let abz := bz - az
  let acx := cx - ax
  let acz := cz - az
  let abLenSq := abx * abx + abz * abz
  if abLenSq < 1e-6 then
    hypot (cx - ax) (cz - az) ≤ radius
  else
    let projection := clamp ((acx * abx + acz * abz) / abLenSq) 0 1
    let closestX := ax + abx * projection
    let closestZ := az + abz * projection
    hypot (cx - closestX) (cz - closestZ) ≤ radius

/-- Source `lineIntersectsWall` (lines 211-227): samples the segment at
`t = i / 18`, `i = 0, …, 18`, and reports a hit when any sampled point lies
inside the (unexpanded) wall rectangle. -/
def lineIntersectsWall (ax az bx bz : ℝ) (wall : Wall) : Prop :=
  let left := wall.x - wall.width / 2
  let right := wall.x + wall.width / 2
  let top := wall.z - wall.height / 2
  let bottom := wall.z + wall.height / 2
  ∃ i : ℕ, i ≤ 18 ∧
    (let t := (i : ℝ) / 18
     let x := ax + (bx - ax) * t
     let z := az + (bz - az) * t
     left ≤ x ∧ x ≤ right ∧ top ≤ z ∧ z ≤ bottom)

/-- The per-emitter occlusion flag of `reconnectAudioEmitters` (lines 472-486):
zone circles are tested first, walls second, short-circuiting on the first hit. -/
noncomputable def occludedFlag (lx lz ex ez : ℝ)
    (zones : List CollisionZone) (walls : List Wall) : Prop :=
  (∃ zone ∈ zones, circleLineIntersection lx lz ex ez zone.x zone.z zone.radius) ∨
  (∃ wall ∈ walls, lineIntersectsWall lx lz ex ez wall)

/-! ## Seed world data (source lines 89-146) -/

def INITIAL_LISTENER : ListenerPose := { x := 0, z := 0, headingDeg := 0 }

def INITIAL_ZONES : List CollisionZone :=
  [{ id := "zone-1", label := "Concrete Pillar", x := -4.8, z := -1.5, radius := 1.6 },
   { id := "zone-2", label := "Kiosk", x := 5, z := 4.5, radius := 1.9 },
   { id := "zone-3", label := "Bench Cluster", x := 3.4, z := -6.8, radius := 1.35 }]

def INITIAL_WALLS : List Wall :=
  [{ id := "wall-1", x := -7.2, z := 2.4, width := 4.6, height := 0.8 },
   { id := "wall-2", x := 1.8, z := -2.8, width := 0.8, height := 5.6 },
   { id := "wall-3", x := 6.7, z := -0.5, width := 0.8, height := 4.2 }]

def INITIAL_EMITTERS : List SoundEmitter :=
  [{ id := "emitter-1", name := "Drone A", x := -6, z := 5, y := 0, frequency := 470,
     gain := 0.16, waveform := .triangle, color := "#0f8c7c", moving := true,
     vx := 0.9, vz := -0.55 },
   { id := "emitter-2", name := "Beacon B", x := 4.8, z := -5.2, y := 0.3, frequency := 690,
     gain := 0.14, waveform := .sine, color := "#df7c20", moving := false,
     vx := 0, vz := 0 },
   { id := "emitter-3", name := "Drone C", x := 7.2, z := 3.4, y := -0.25, frequency := 920,
     gain := 0.12, waveform := .square, color := "#4670e7", moving := true,
     vx := -0.75, vz := 0.45 }]

/-! ## MotionIntegrator (source lines 778-869) -/

open Classical in
/-- The walk-mode listener update inside `tick` (lines 793-820), as a function
of the already-clamped frame delta: turn, derive basis vectors from the new
heading, form the desired displacement, then the axis-separated slide policy. -/
noncomputable def listenerStep (current : ListenerPose) (forward strafe turn delta : ℝ)
    (zones : List CollisionZone) (walls : List Wall) : ListenerPose :=
  let heading := wrapDegrees (current.headingDeg + turn * TURN_SPEED_DEG_PER_SEC * delta)
  let rad := toRadians heading
  let fx := Real.sin rad
  let fz := -Real.cos rad
  let rx := Real.cos rad
  let rz := Real.sin rad
  let step := MOVE_SPEED_MPS * delta
  let desiredX := current.x + (forward * fx + strafe * rx) * step
  let desiredZ := current.z + (forward * fz + strafe * rz) * step
  if collidesAt desiredX desiredZ PLAYER_RADIUS_M zones walls then
    if ¬ collidesAt desiredX current.z PLAYER_RADIUS_M zones walls then
      { x := desiredX, z := current.z, headingDeg := heading }
    else if ¬ collidesAt current.x desiredZ PLAYER_RADIUS_M zones walls then
      { x := current.x, z := desiredZ, headingDeg := heading }
    else
      { x := current.x, z := current.z, headingDeg := heading }
  else
    { x := desiredX, z := desiredZ, headingDeg := heading }

open Classical in
/-- One walk-mode tick for the listener (lines 782-821): the raw elapsed time
is clamped to at most 0.04 s, and the pose is only recomputed when some intent
axis is non-zero. -/
noncomputable def walkTick (current : ListenerPose) (forward strafe turn elapsed : ℝ)
    (zones : List CollisionZone) (walls : List Wall) : ListenerPose :=
  let delta := min elapsed 0.04
  if forward ≠ 0 ∨ strafe ≠ 0 ∨ turn ≠ 0 then
    listenerStep current forward strafe turn delta zones walls
  else current

open Classical in
/-- The per-emitter motion update inside `tick` (lines 826-858): integrate by
`(vx, vz) * delta`; on collision test the axis-wise partial moves, flipping the
velocity component and recomputing the coordinate for each colliding axis, and
if the recomputed combined position still collides flip both components. -/
noncomputable def emitterStep (emitter : SoundEmitter) (delta : ℝ)
    (zones : List CollisionZone) (walls : List Wall) : SoundEmitter :=
  if emitter.moving = false then emitter
  else
    let vx0 := emitter.vx
    let vz0 := emitter.vz
    let nx0 := emitter.x + vx0 * delta
    let nz0 := emitter.z + vz0 * delta
    if collidesAt nx0 nz0 EMITTER_RADIUS_M zones walls then
      let collidesX := collidesAt nx0 emitter.z EMITTER_RADIUS_M zones walls
      let collidesZ := collidesAt emitter.x nz0 EMITTER_RADIUS_M zones walls
      let vx1 := if collidesX then -vx0 else vx0
      let nx1 := if collidesX then emitter.x + vx1 * delta else nx0
      let vz1 := if collidesZ then -vz0 else vz0
      let nz1 := if collidesZ then emitter.z + vz1 * delta else nz0
      if collidesAt nx1 nz1 EMITTER_RADIUS_M zones walls then
        { emitter with x := emitter.x + -vx1 * delta, z := emitter.z + -vz1 * delta,
                       vx := -vx1, vz := -vz1 }
      else
        { emitter with x := nx1, z := nz1, vx := vx1, vz := vz1 }
    else
      { emitter with x := nx0, z := nz0 }

/-! ## Entity commands (source lines 649-710 and 985-994) -/

/-- The outcomes of the random draws performed by `addEmitter` (lines 656-663),
passed in as explicit inputs. -/
structure RandomDraws where
  y : ℝ
  frequency : ℝ
  gain : ℝ
  waveform : Waveform
  color : String
  moving : Bool
  vx : ℝ
  vz : ℝ

/-- Source `addEmitter` (lines 649-667): appends a fresh emitter at the requested
`(x, z)` verbatim, with randomly drawn remaining fields and id
`emitter-<counter>`. -/
def addEmitter (emitters : List SoundEmitter) (counter : ℕ) (x z : ℝ)
    (draws : RandomDraws) : List SoundEmitter :=
  emitters ++ [{ id := "emitter-" ++ toString counter,
                 name := "Emitter " ++ toString counter,
                 x := x, z := z, y := draws.y,
                 frequency := draws.frequency, gain := draws.gain,
                 waveform := draws.waveform, color := draws.color,
                 moving := draws.moving, vx := draws.vx, vz := draws.vz }]

open Classical in
/-- Source `onCanvasDoubleClick` (lines 985-994): convert the canvas point to world
coordinates and add an emitter there unless the point collides at the emitter
radius, in which case nothing is added. -/
noncomputable def onCanvasDoubleClick (emitters : List SoundEmitter) (counter : ℕ)
    (localX localY : ℝ) (zones : List CollisionZone) (walls : List Wall)
    (draws : RandomDraws) : List SoundEmitter :=
  let point := canvasToPoint localX localY CANVAS_SIZE
  if ¬ collidesAt point.1 point.2 EMITTER_RADIUS_M zones walls then
    addEmitter emitters counter point.1 point.2 draws
  else emitters

/-- Model of `Partial<SoundEmitter>`: each field optionally present. -/
structure EmitterPatch where
  id : Option String := none
  name : Option String := none
  x : Option ℝ := none
  z : Option ℝ := none
  y : Option ℝ := none
  frequency : Option ℝ := none
  gain : Option ℝ := none
  waveform : Option Waveform := none
  color : Option String := none
  moving : Option Bool := none
  vx : Option ℝ := none
  vz : Option ℝ := none

/-- JavaScript object spread `{ ...emitter, ...patch }`. -/
def applyEmitterPatch (emitter : SoundEmitter) (patch : EmitterPatch) : SoundEmitter :=
  { id := patch.id.getD emitter.id, name := patch.name.getD emitter.name,
    x := patch.x.getD emitter.x, z := patch.z.getD emitter.z,
    y := patch.y.getD emitter.y, frequency := patch.frequency.getD emitter.frequency,
    gain := patch.gain.getD emitter.gain, waveform := patch.waveform.getD emitter.waveform,
    color := patch.color.getD emitter.color, moving := patch.moving.getD emitter.moving,
    vx := patch.vx.getD emitter.vx, vz := patch.vz.getD emitter.vz }

/-- Source `updateEmitter` (lines 695-697): map the patch over the matching id. -/
def updateEmitter (emitters : List SoundEmitter) (id : String)
    (patch : EmitterPatch) : List SoundEmitter :=
  emitters.map (fun emitter => if emitter.id = id then applyEmitterPatch emitter patch else emitter)

/-- Model of `Partial<CollisionZone>`. -/
structure ZonePatch where
  id : Option String := none
  label : Option String := none
  x : Option ℝ := none
  z : Option ℝ := none
  radius : Option ℝ := none

/-- JavaScript object spread `{ ...zone, ...patch }`. -/
def applyZonePatch (zone : CollisionZone) (patch : ZonePatch) : CollisionZone :=
  { id := patch.id.getD zone.id, label := patch.label.getD zone.label,
    x := patch.x.getD zone.x, z := patch.z.getD zone.z,
    radius := patch.radius.getD zone.radius }

/-- Source `updateZone` (lines 704-706): map the patch over the matching id. -/
def updateZone (zones : List CollisionZone) (id : String)
    (patch : ZonePatch) : List CollisionZone :=
  zones.map (fun zone => if zone.id = id then applyZonePatch zone patch else zone)

/-- Model of `Partial<Wall>`. -/
structure WallPatch where
  id : Option String := none
  x : Option ℝ := none
  z : Option ℝ := none
  width : Option ℝ := none
  height : Option ℝ := none

/-- JavaScript object spread `{ ...wall, ...patch }`. -/
def applyWallPatch (wall : Wall) (patch : WallPatch) : Wall :=
  { id := patch.id.getD wall.id, x := patch.x.getD wall.x, z := patch.z.getD wall.z,
    width := patch.width.getD wall.width, height := patch.height.getD wall.height }

/-- Source `updateWall` (lines 708-710): map the patch over the matching id. -/
def updateWall (walls : List Wall) (id : String) (patch : WallPatch) : List Wall :=
  walls.map (fun wall => if wall.id = id then applyWallPatch wall patch else wall)

/-! ## AudioGraphReconciler (source lines 439-503)

The synthesis-unit map of `reconnectAudioEmitters` is tracked by its key set in
insertion order; create and dispose operations are counted. -/

/-- Phase 2 of `reconnectAudioEmitters` (lines 455-459 for the create branch):
walk the live emitters, creating (appending) a unit for each id that has none,
and count the creations. -/
def createMissingUnits : List String → List SoundEmitter → List String × ℕ
  | keys, [] => (keys, 0)
  | keys, emitter :: rest =>
    if emitter.id ∈ keys then createMissingUnits keys rest
    else
      let result := createMissingUnits (keys ++ [emitter.id]) rest
      (result.1, result.2 + 1)

/-- Source `reconnectAudioEmitters` reconciliation (lines 439-503) on the unit-map key
set: dispose (drop) units whose id is no longer live, then create units for
live emitters that lack one. Returns the new key set with the create and
dispose counts. -/
def reconcile (keys : List String) (emitters : List SoundEmitter) :
    List String × ℕ × ℕ :=
  let liveIds := emitters.map (fun emitter => emitter.id)
  let kept := keys.filter (fun id => id ∈ liveIds)
  let disposed := (keys.filter (fun id => id ∉ liveIds)).length
  let created := createMissingUnits kept emitters
  (created.1, created.2, disposed)

/-! ## AcousticModel: Doppler (source lines 462-470) -/

/-- The observed-frequency computation of `reconnectAudioEmitters`
(lines 462-470). -/
noncomputable def observedFrequency (listener : ListenerPose) (emitter : SoundEmitter) : ℝ :=
  let dx := listener.x - emitter.x
  let dz := listener.z - emitter.z
  let distance := max 0.001 (hypot dx dz)
  let towardListener := (emitter.vx * dx + emitter.vz * dz) / distance
  clamp (emitter.frequency * (SOUND_SPEED_MPS / (SOUND_SPEED_MPS - towardListener)))
    (emitter.frequency * 0.6) (emitter.frequency * 1.8)

/-! ## Helper lemmas about `hypot` and `clamp` -/

lemma hypot_nonneg (x z : ℝ) : 0 ≤ hypot x z := Real.sqrt_nonneg _

lemma hypot_le (x z r : ℝ) (h : x * x + z * z ≤ r * r) (hr : 0 ≤ r) : hypot x z ≤ r := by
  have h' := Real.sqrt_le_sqrt h
  rwa [Real.sqrt_mul_self hr] at h'

lemma lt_hypot (x z r : ℝ) (hr : 0 ≤ r) (h : r * r < x * x + z * z) : r < hypot x z := by
  have h' := Real.sqrt_lt_sqrt (mul_self_nonneg r) h
  rwa [Real.sqrt_mul_self hr] at h'

lemma hypot_lt (x z r : ℝ) (hr : 0 ≤ r) (h : x * x + z * z < r * r) : hypot x z < r := by
  have h' := Real.sqrt_lt_sqrt (add_nonneg (mul_self_nonneg x) (mul_self_nonneg z)) h
  rwa [Real.sqrt_mul_self hr] at h'

lemma hypot_mono (x z u v : ℝ) (h : x * x + z * z ≤ u * u + v * v) :
    hypot x z ≤ hypot u v := Real.sqrt_le_sqrt h

lemma clamp_le_hi (value lo hi : ℝ) : clamp value lo hi ≤ hi := min_le_left _ _

lemma lo_le_clamp (value lo hi : ℝ) (h : lo ≤ hi) : lo ≤ clamp value lo hi :=
  le_min h (le_max_left _ _)

/-! ## C2: characterization of `collidesAt` -/

/-- C2: `collidesAt(x, z, r)` is false exactly when the point stays in the
world disk (`hypot(x, z) + r ≤ WORLD_RADIUS_M`), lies at distance strictly
greater than `zone.radius + r` from every zone center, and lies outside every
wall rectangle expanded by `r` on all sides; violating any one condition makes
it true. -/
theorem collidesAt_false_iff (x z r : ℝ) (zones : List CollisionZone) (walls : List Wall) :
    ¬ collidesAt x z r zones walls ↔
      (hypot x z + r ≤ WORLD_RADIUS_M ∧
       (∀ zone ∈ zones, zone.radius + r < hypot (x - zone.x) (z - zone.z)) ∧
       (∀ wall ∈ walls,
         ¬ (wall.x - wall.width / 2 - r ≤ x ∧ x ≤ wall.x + wall.width / 2 + r ∧
            wall.z - wall.height / 2 - r ≤ z ∧ z ≤ wall.z + wall.height / 2 + r))) := by
  unfold collidesAt zoneBlocks wallBlocks
  constructor
  · intro h
    refine ⟨le_of_not_lt fun hw => h (Or.inl hw), fun zone hz => ?_, fun wall hw hc => ?_⟩
    · by_contra hle
      exact h (Or.inr (Or.inl ⟨zone, hz, not_lt.mp hle⟩))
    · exact h (Or.inr (Or.inr ⟨wall, hw, hc⟩))
  · rintro ⟨h1, h2, h3⟩ (hw | ⟨zone, hz, hb⟩ | ⟨wall, hwm, hb⟩)
    · exact absurd h1 (not_le.mpr hw)
    · exact absurd hb (not_le.mpr (h2 zone hz))
    · exact h3 wall hwm hb

/-- Witness for C2 at a concrete input: the origin with the player radius and
no obstacles does not collide. -/
theorem collidesAt_false_iff_witness :
    ¬ collidesAt 0 0 0.45 [] [] := by
  rw [collidesAt_false_iff]
  refine ⟨?_, by simp, by simp⟩
  have h : hypot 0 0 ≤ 1 := hypot_le _ _ _ (by norm_num) (by norm_num)
  unfold WORLD_RADIUS_M
  linarith

/-! ## C3: Doppler clamp bounds -/

/-- C3: for every emitter with positive base frequency and every listener and
emitter configuration, the observed frequency produced by the Doppler step
stays in the closed interval `[0.6 * frequency, 1.8 * frequency]` and in
particular is strictly positive — it never diverges even as the closing speed
approaches or exceeds `SOUND_SPEED_MPS`. -/
theorem observedFrequency_bounds (listener : ListenerPose) (emitter : SoundEmitter)
    (hf : 0 < emitter.frequency) :
    emitter.frequency * 0.6 ≤ observedFrequency listener emitter ∧
    observedFrequency listener emitter ≤ emitter.frequency * 1.8 ∧
    0 < observedFrequency listener emitter := by
  have hle : emitter.frequency * 0.6 ≤ emitter.frequency * 1.8 := by nlinarith
  have hlo : emitter.frequency * 0.6 ≤ observedFrequency listener emitter := by
    unfold observedFrequency
    exact lo_le_clamp _ _ _ hle
  have hhi : observedFrequency listener emitter ≤ emitter.frequency * 1.8 := by
    unfold observedFrequency
    exact clamp_le_hi _ _ _
  exact ⟨hlo, hhi, lt_of_lt_of_le (by nlinarith) hlo⟩

/-- A concrete emitter used by witnesses: approaching the listener almost
head-on at high speed. -/
def sampleEmitter : SoundEmitter :=
  { id := "emitter-s", name := "Sample", x := 3, z := 4, y := 0, frequency := 470,
    gain := 0.1, waveform := .sine, color := "#000000", moving := true,
    vx := -300, vz := -400 }

/-- Witness for C3: the bounds hold at a concrete high-closing-speed emitter. -/
theorem observedFrequency_bounds_witness :
    0 < sampleEmitter.frequency ∧
    sampleEmitter.frequency * 0.6 ≤ observedFrequency INITIAL_LISTENER sampleEmitter ∧
    observedFrequency INITIAL_LISTENER sampleEmitter ≤ sampleEmitter.frequency * 1.8 ∧
    0 < observedFrequency INITIAL_LISTENER sampleEmitter :=
  ⟨by norm_num [sampleEmitter],
   observedFrequency_bounds INITIAL_LISTENER sampleEmitter (by norm_num [sampleEmitter])⟩

/-! ## C1: slide-or-reject invariant of the walk-mode tick -/

/-- C1: starting from any non-colliding listener position, with any intent
whose axes lie in `{-1, 0, 1}`, any elapsed time (clamped inside the tick) and
any zones and walls, the position after one walk-mode tick is again
non-colliding, and it is the desired position, a slide holding Z fixed, a
slide holding X fixed, or a full reject keeping the old position. -/
theorem walkTick_no_collision (current : ListenerPose) (forward strafe turn elapsed : ℝ)
    (zones : List CollisionZone) (walls : List Wall)
    (hf : forward = -1 ∨ forward = 0 ∨ forward = 1)
    (hs : strafe = -1 ∨ strafe = 0 ∨ strafe = 1)
    (ht : turn = -1 ∨ turn = 0 ∨ turn = 1)
    (hstart : ¬ collidesAt current.x current.z PLAYER_RADIUS_M zones walls) :
    ¬ collidesAt (walkTick current forward strafe turn elapsed zones walls).x
        (walkTick current forward strafe turn elapsed zones walls).z
        PLAYER_RADIUS_M zones walls ∧
    (let delta := min elapsed 0.04
     let heading := wrapDegrees (current.headingDeg + turn * TURN_SPEED_DEG_PER_SEC * delta)
     let rad := toRadians heading
     let desiredX := current.x +
       (forward * Real.sin rad + strafe * Real.cos rad) * (MOVE_SPEED_MPS * delta)
     let desiredZ := current.z +
       (forward * -Real.cos rad + strafe * Real.sin rad) * (MOVE_SPEED_MPS * delta)
     let next := walkTick current forward strafe turn elapsed zones walls
     (next.x = desiredX ∧ next.z = desiredZ) ∨
     (next.x = desiredX ∧ next.z = current.z) ∨
     (next.x = current.x ∧ next.z = desiredZ) ∨
     (next.x = current.x ∧ next.z = current.z)) := by
  unfold walkTick listenerStep
  by_cases hguard : forward ≠ 0 ∨ strafe ≠ 0 ∨ turn ≠ 0
  · rw [if_pos hguard]
    dsimp only
    by_cases h1 : collidesAt
        (current.x + (forward * Real.sin (toRadians (wrapDegrees
          (current.headingDeg + turn * TURN_SPEED_DEG_PER_SEC * min elapsed 0.04))) +
          strafe * Real.cos (toRadians (wrapDegrees
          (current.headingDeg + turn * TURN_SPEED_DEG_PER_SEC * min elapsed 0.04)))) *
          (MOVE_SPEED_MPS * min elapsed 0.04))
        (current.z + (forward * -Real.cos (toRadians (wrapDegrees
          (current.headingDeg + turn * TURN_SPEED_DEG_PER_SEC * min elapsed 0.04))) +
          strafe * Real.sin (toRadians (wrapDegrees
          (current.headingDeg + turn * TURN_SPEED_DEG_PER_SEC * min elapsed 0.04)))) *
          (MOVE_SPEED_MPS * min elapsed 0.04))
        PLAYER_RADIUS_M zones walls
    · rw [if_pos h1]
      by_cases h2 : collidesAt
          (current.x + (forward * Real.sin (toRadians (wrapDegrees
            (current.headingDeg + turn * TURN_SPEED_DEG_PER_SEC * min elapsed 0.04))) +
            strafe * Real.cos (toRadians (wrapDegrees
            (current.headingDeg + turn * TURN_SPEED_DEG_PER_SEC * min elapsed 0.04)))) *
            (MOVE_SPEED_MPS * min elapsed 0.04))
          current.z PLAYER_RADIUS_M zones walls
      · rw [if_neg (not_not_intro h2)]
        by_cases h3 : collidesAt current.x
            (current.z + (forward * -Real.cos (toRadians (wrapDegrees
              (current.headingDeg + turn * TURN_SPEED_DEG_PER_SEC * min elapsed 0.04))) +
              strafe * Real.sin (toRadians (wrapDegrees
              (current.headingDeg + turn * TURN_SPEED_DEG_PER_SEC * min elapsed 0.04)))) *
              (MOVE_SPEED_MPS * min elapsed 0.04))
            PLAYER_RADIUS_M zones walls
        · rw [if_neg (not_not_intro h3)]
          exact ⟨hstart, Or.inr (Or.inr (Or.inr ⟨rfl, rfl⟩))⟩
        · rw [if_pos h3]
          exact ⟨h3, Or.inr (Or.inr (Or.inl ⟨rfl, rfl⟩))⟩
      · rw [if_pos h2]
        exact ⟨h2, Or.inr (Or.inl ⟨rfl, rfl⟩)⟩
    · rw [if_neg h1]
      exact ⟨h1, Or.inl ⟨rfl, rfl⟩⟩
  · rw [if_neg hguard]
    exact ⟨hstart, Or.inr (Or.inr (Or.inr ⟨rfl, rfl⟩))⟩

/-- Witness for C1 at a concrete input: the seed listener at the origin,
full-forward intent, a 40 ms tick and no obstacles. -/
theorem walkTick_no_collision_witness :
    ¬ collidesAt INITIAL_LISTENER.x INITIAL_LISTENER.z PLAYER_RADIUS_M [] [] ∧
    ¬ collidesAt (walkTick INITIAL_LISTENER 1 0 0 0.04 [] []).x
        (walkTick INITIAL_LISTENER 1 0 0 0.04 [] []).z PLAYER_RADIUS_M [] [] := by
  have hstart : ¬ collidesAt INITIAL_LISTENER.x INITIAL_LISTENER.z PLAYER_RADIUS_M [] [] := by
    unfold collidesAt INITIAL_LISTENER PLAYER_RADIUS_M WORLD_RADIUS_M
    rintro (h | ⟨zone, hz, _⟩ | ⟨wall, hw, _⟩)
    · have hle : hypot 0 0 ≤ 1 := hypot_le _ _ _ (by norm_num) (by norm_num)
      simp only at h
      linarith
    · simp at hz
    · simp at hw
  exact ⟨hstart,
    (walkTick_no_collision INITIAL_LISTENER 1 0 0 0.04 [] []
      (by norm_num) (by norm_num) (by norm_num) hstart).1⟩

/-! ## Geometry of the clamped projection used by `circleLineIntersection` -/

/-- The clamped projection computed by `circleLineIntersection` on a
non-degenerate segment minimizes, among the parameters `s ∈ [0, 1]`, the
squared distance from the segment point to the circle center (here written in
the segment frame: `ab` is the segment direction, `ac` the vector from the
segment start to the center). -/
lemma clamp_projection_min (abx abz acx acz s : ℝ)
    (hL : 0 < abx * abx + abz * abz) (hs0 : 0 ≤ s) (hs1 : s ≤ 1) :
    (acx - abx * clamp ((acx * abx + acz * abz) / (abx * abx + abz * abz)) 0 1) *
      (acx - abx * clamp ((acx * abx + acz * abz) / (abx * abx + abz * abz)) 0 1) +
    (acz - abz * clamp ((acx * abx + acz * abz) / (abx * abx + abz * abz)) 0 1) *
      (acz - abz * clamp ((acx * abx + acz * abz) / (abx * abx + abz * abz)) 0 1) ≤
    (acx - abx * s) * (acx - abx * s) + (acz - abz * s) * (acz - abz * s) := by
  rcases le_or_lt (acx * abx + acz * abz) 0 with hD0 | hD0
  · have hp : clamp ((acx * abx + acz * abz) / (abx * abx + abz * abz)) 0 1 = 0 := by
      unfold clamp
      rw [max_eq_left (div_nonpos_of_nonpos_of_nonneg hD0 hL.le),
        min_eq_right (by norm_num : (0 : ℝ) ≤ 1)]
    rw [hp]
    nlinarith [mul_nonneg hs0 (neg_nonneg.mpr hD0),
      mul_nonneg (mul_nonneg hs0 hs0) hL.le]
  · rcases le_or_lt (abx * abx + abz * abz) (acx * abx + acz * abz) with hD1 | hD1
    · have hp : clamp ((acx * abx + acz * abz) / (abx * abx + abz * abz)) 0 1 = 1 := by
        unfold clamp
        rw [max_eq_right (le_of_lt (div_pos hD0 hL)),
          min_eq_left ((one_le_div hL).mpr hD1)]
      rw [hp]
      nlinarith [mul_nonneg (sub_nonneg.mpr hs1)
        (by nlinarith : 0 ≤ 2 * (acx * abx + acz * abz) - (s + 1) * (abx * abx + abz * abz))]
    · have hp : clamp ((acx * abx + acz * abz) / (abx * abx + abz * abz)) 0 1 =
          (acx * abx + acz * abz) / (abx * abx + abz * abz) := by
        unfold clamp
        rw [max_eq_right (le_of_lt (div_pos hD0 hL)),
          min_eq_right (le_of_lt ((div_lt_one hL).mpr hD1))]
      rw [hp]
      rw [← mul_le_mul_left hL]
      have e1 : (abx * abx + abz * abz) *
          ((acx - abx * ((acx * abx + acz * abz) / (abx * abx + abz * abz))) *
            (acx - abx * ((acx * abx + acz * abz) / (abx * abx + abz * abz))) +
           (acz - abz * ((acx * abx + acz * abz) / (abx * abx + abz * abz))) *
            (acz - abz * ((acx * abx + acz * abz) / (abx * abx + abz * abz)))) =
          (abx * abx + abz * abz) * (acx * acx + acz * acz) -
            (acx * abx + acz * abz) * (acx * abx + acz * abz) := by
        field_simp
        ring
      rw [e1]
      nlinarith [sq_nonneg (s * (abx * abx + abz * abz) - (acx * abx + acz * abz))]

/-- If some point `a + t * (b - a)`, `t ∈ [0, 1]`, of a non-degenerate segment
lies within `radius` of the center, `circleLineIntersection` reports a hit. -/
lemma circleLine_of_segment_point (ax az bx bz cx cz radius t : ℝ)
    (hnd : 1e-6 ≤ (bx - ax) * (bx - ax) + (bz - az) * (bz - az))
    (ht0 : 0 ≤ t) (ht1 : t ≤ 1)
    (hin : hypot (cx - (ax + (bx - ax) * t)) (cz - (az + (bz - az) * t)) ≤ radius) :
    circleLineIntersection ax az bx bz cx cz radius := by
  have hL : 0 < (bx - ax) * (bx - ax) + (bz - az) * (bz - az) :=
    lt_of_lt_of_le (by norm_num) hnd
  unfold circleLineIntersection
  rw [if_neg (not_lt.mpr hnd)]
  dsimp only
  refine le_trans (le_trans ?_ (le_of_eq rfl)) hin
  have hmin := clamp_projection_min (bx - ax) (bz - az) (cx - ax) (cz - az) t hL ht0 ht1
  have e1 : ∀ p : ℝ, cx - (ax + (bx - ax) * p) = (cx - ax) - (bx - ax) * p := by
    intro p; ring
  have e2 : ∀ p : ℝ, cz - (az + (bz - az) * p) = (cz - az) - (bz - az) * p := by
    intro p; ring
  rw [e1, e2, e1, e2]
  exact hypot_mono _ _ _ _ hmin

/-- If the segment start `a` lies within `radius` of the center,
`circleLineIntersection` reports a hit (in the degenerate branch this is the
very test performed; otherwise the closest point is at least as close). -/
lemma circleLine_of_endpoint_a (ax az bx bz cx cz radius : ℝ)
    (hin : hypot (cx - ax) (cz - az) ≤ radius) :
    circleLineIntersection ax az bx bz cx cz radius := by
  rcases lt_or_le ((bx - ax) * (bx - ax) + (bz - az) * (bz - az)) 1e-6 with hdeg | hnd
  · unfold circleLineIntersection
    rw [if_pos hdeg]
    exact hin
  · refine circleLine_of_segment_point ax az bx bz cx cz radius 0 hnd le_rfl
      (by norm_num) ?_
    have e1 : cx - (ax + (bx - ax) * 0) = cx - ax := by ring
    have e2 : cz - (az + (bz - az) * 0) = cz - az := by ring
    rw [e1, e2]
    exact hin

/-- Lemma: `circleLineIntersection` only reports a hit when some segment parameter
`t ∈ [0, 1]` puts the segment point within `radius` of the center. -/
lemma circleLine_yields_point (ax az bx bz cx cz radius : ℝ)
    (h : circleLineIntersection ax az bx bz cx cz radius) :
    ∃ t : ℝ, 0 ≤ t ∧ t ≤ 1 ∧
      hypot (cx - (ax + (bx - ax) * t)) (cz - (az + (bz - az) * t)) ≤ radius := by
  unfold circleLineIntersection at h
  dsimp only at h
  split_ifs at h with hdeg
  · refine ⟨0, le_rfl, by norm_num, ?_⟩
    have e1 : cx - (ax + (bx - ax) * 0) = cx - ax := by ring
    have e2 : cz - (az + (bz - az) * 0) = cz - az := by ring
    rw [e1, e2]
    exact h
  · refine ⟨clamp (((cx - ax) * (bx - ax) + (cz - az) * (bz - az)) /
      ((bx - ax) * (bx - ax) + (bz - az) * (bz - az))) 0 1,
      lo_le_clamp _ _ _ (by norm_num), clamp_le_hi _ _ _, ?_⟩
    exact h

/-- A point at segment parameter `t = i / 18`, `i ≤ 18`, lies on the segment
with parameter in `[0, 1]`. -/
lemma sample_param_mem (i : ℕ) (hi : i ≤ 18) :
    0 ≤ (i : ℝ) / 18 ∧ (i : ℝ) / 18 ≤ 1 := by
  constructor
  · positivity
  · rw [div_le_one (by norm_num)]
    exact_mod_cast hi

/-- The first sampled point of `lineIntersectsWall` is the segment start: a
start point inside the rectangle is a hit. -/
lemma lineIntersectsWall_endpoint_a (ax az bx bz : ℝ) (wall : Wall)
    (h : wall.x - wall.width / 2 ≤ ax ∧ ax ≤ wall.x + wall.width / 2 ∧
         wall.z - wall.height / 2 ≤ az ∧ az ≤ wall.z + wall.height / 2) :
    lineIntersectsWall ax az bx bz wall := by
  unfold lineIntersectsWall
  refine ⟨0, by norm_num, ?_⟩
  dsimp only
  have e1 : ax + (bx - ax) * (((0 : ℕ) : ℝ) / 18) = ax := by push_cast; ring
  have e2 : az + (bz - az) * (((0 : ℕ) : ℝ) / 18) = az := by push_cast; ring
  rw [e1, e2]
  exact h

/-- The last sampled point of `lineIntersectsWall` is the segment end: an end
point inside the rectangle is a hit. -/
lemma lineIntersectsWall_endpoint_b (ax az bx bz : ℝ) (wall : Wall)
    (h : wall.x - wall.width / 2 ≤ bx ∧ bx ≤ wall.x + wall.width / 2 ∧
         wall.z - wall.height / 2 ≤ bz ∧ bz ≤ wall.z + wall.height / 2) :
    lineIntersectsWall ax az bx bz wall := by
  unfold lineIntersectsWall
  refine ⟨18, le_rfl, ?_⟩
  dsimp only
  have e1 : ax + (bx - ax) * (((18 : ℕ) : ℝ) / 18) = bx := by push_cast; ring
  have e2 : az + (bz - az) * (((18 : ℕ) : ℝ) / 18) = bz := by push_cast; ring
  rw [e1, e2]
  exact h

/-! ## C4 (corrected): segment occlusion tests -/

/-- The wall of occlusion scenario C: centered at the origin, width 2,
height 2. -/
def scenarioWall : Wall := { id := "wall-c", x := 0, z := 0, width := 2, height := 2 }

/-- C4 counterexample: a degenerate listener–emitter segment (squared length
`1.6e-7 < 1e-6`) that passes through the interior of the zone of radius 1
centered at the origin — its midpoint is strictly inside while both endpoints
are outside — yet the occlusion flag is false, because the degenerate branch
of `circleLineIntersection` only point-tests the segment start. -/
theorem occlusion_crossing_cex :
    (∃ t : ℝ, 0 ≤ t ∧ t ≤ 1 ∧
      hypot ((0 : ℝ) - ((-0.0002) + (0.0002 - (-0.0002)) * t))
            ((0 : ℝ) - (0.99999999 + (0.99999999 - 0.99999999) * t)) < 1) ∧
    ¬ occludedFlag (-0.0002) 0.99999999 0.0002 0.99999999
        [{ id := "zone-c", label := "c", x := 0, z := 0, radius := 1 }] [] := by
  constructor
  · refine ⟨1 / 2, by norm_num, by norm_num, ?_⟩
    have e1 : (0 : ℝ) - ((-0.0002) + (0.0002 - (-0.0002)) * (1 / 2)) = 0 := by norm_num
    have e2 : (0 : ℝ) - (0.99999999 + (0.99999999 - 0.99999999) * (1 / 2)) =
        -0.99999999 := by norm_num
    rw [e1, e2]
    exact hypot_lt _ _ _ (by norm_num) (by norm_num)
  · rintro (⟨zone, hz, hc⟩ | ⟨wall, hw, _⟩)
    · simp only [List.mem_singleton] at hz
      subst hz
      unfold circleLineIntersection at hc
      rw [if_pos (by norm_num)] at hc
      dsimp only at hc
      have hgt : (1 : ℝ) < hypot ((0 : ℝ) - (-0.0002)) ((0 : ℝ) - 0.99999999) :=
        lt_hypot _ _ _ (by norm_num) (by norm_num)
      linarith
    · simp at hw

/-- C4 (amended): on a non-degenerate listener–emitter segment (squared length
at least `1e-6`), crossing a zone's interior makes the occlusion flag true;
a segment staying strictly farther than each zone's radius from its center and
meeting no wall rectangle at any parameter leaves the flag false; and in
scenario C the wall centered at the origin with width 2 and height 2 occludes
the segment from (−5, 0) to (5, 0) but not the one from (−5, 5) to (5, 5). -/
theorem occlusion_crossing (lx lz ex ez : ℝ)
    (zones : List CollisionZone) (walls : List Wall) :
    (1e-6 ≤ (ex - lx) * (ex - lx) + (ez - lz) * (ez - lz) →
      (∃ zone ∈ zones, ∃ t : ℝ, 0 ≤ t ∧ t ≤ 1 ∧
        hypot (zone.x - (lx + (ex - lx) * t)) (zone.z - (lz + (ez - lz) * t)) <
          zone.radius) →
      occludedFlag lx lz ex ez zones walls) ∧
    ((∀ zone ∈ zones, ∀ t : ℝ, 0 ≤ t → t ≤ 1 →
        zone.radius <
          hypot (zone.x - (lx + (ex - lx) * t)) (zone.z - (lz + (ez - lz) * t))) →
     (∀ wall ∈ walls, ∀ t : ℝ, 0 ≤ t → t ≤ 1 →
        ¬ (wall.x - wall.width / 2 ≤ lx + (ex - lx) * t ∧
           lx + (ex - lx) * t ≤ wall.x + wall.width / 2 ∧
           wall.z - wall.height / 2 ≤ lz + (ez - lz) * t ∧
           lz + (ez - lz) * t ≤ wall.z + wall.height / 2)) →
      ¬ occludedFlag lx lz ex ez zones walls) ∧
    (occludedFlag (-5) 0 5 0 [] [scenarioWall] ∧
     ¬ occludedFlag (-5) 5 5 5 [] [scenarioWall]) := by
  refine ⟨?_, ?_, ?_, ?_⟩
  · rintro hnd ⟨zone, hz, t, ht0, ht1, hlt⟩
    exact Or.inl ⟨zone, hz,
      circleLine_of_segment_point lx lz ex ez zone.x zone.z zone.radius t hnd ht0 ht1
        (le_of_lt hlt)⟩
  · rintro hzones hwalls (⟨zone, hz, hc⟩ | ⟨wall, hwm, hi⟩)
    · obtain ⟨t, ht0, ht1, hle⟩ :=
        circleLine_yields_point lx lz ex ez zone.x zone.z zone.radius hc
      exact absurd hle (not_le.mpr (hzones zone hz t ht0 ht1))
    · obtain ⟨i, hi18, hconj⟩ := hi
      exact hwalls wall hwm ((i : ℝ) / 18) (sample_param_mem i hi18).1
        (sample_param_mem i hi18).2 hconj
  · refine Or.inr ⟨scenarioWall, by simp, ?_⟩
    unfold lineIntersectsWall scenarioWall
    refine ⟨9, by norm_num, ?_⟩
    dsimp only
    norm_num
  · rintro (⟨zone, hz, _⟩ | ⟨wall, hw, hi⟩)
    · simp at hz
    · simp only [List.mem_singleton] at hw
      subst hw
      obtain ⟨i, _, hconj⟩ := hi
      unfold scenarioWall at hconj
      dsimp only at hconj
      obtain ⟨_, _, _, h4⟩ := hconj
      norm_num at h4

/-- A zone used by occlusion witnesses, sitting on the sample segment. -/
def sampleZone : CollisionZone := { id := "zone-s", label := "s", x := 0, z := 3, radius := 1 }

/-- Witness for C4 at concrete inputs: the long horizontal segment through
`sampleZone` is occluded; with no obstacles at all nothing is occluded; and
both scenario C verdicts hold. -/
theorem occlusion_crossing_witness :
    occludedFlag (-5) 3 5 3 [sampleZone] [] ∧
    ¬ occludedFlag (-5) 3 5 3 [] [] ∧
    occludedFlag (-5) 0 5 0 [] [scenarioWall] ∧
    ¬ occludedFlag (-5) 5 5 5 [] [scenarioWall] := by
  refine ⟨?_, ?_, (occlusion_crossing (-5) 0 5 0 [] [scenarioWall]).2.2.1,
    (occlusion_crossing (-5) 5 5 5 [] [scenarioWall]).2.2.2⟩
  · refine (occlusion_crossing (-5) 3 5 3 [sampleZone] []).1 (by norm_num)
      ⟨sampleZone, by simp, 1 / 2, by norm_num, by norm_num, ?_⟩
    unfold sampleZone
    dsimp only
    have e1 : (0 : ℝ) - ((-5) + (5 - (-5)) * (1 / 2)) = 0 := by norm_num
    have e2 : (3 : ℝ) - (3 + (3 - 3) * (1 / 2)) = 0 := by norm_num
    rw [e1, e2]
    exact lt_of_le_of_lt (hypot_le 0 0 0 (by norm_num) le_rfl) (by norm_num)
  · exact (occlusion_crossing (-5) 3 5 3 [] []).2.1 (by simp) (by simp)

/-! ## C10 (corrected): endpoint coverage of the occlusion tests -/

/-- C10 counterexample: the emitter stands inside a zone (within its radius of
the center), but the listener–emitter segment is degenerate (squared length
`1.6e-7 < 1e-6`), so `circleLineIntersection` falls back to point-testing only
the listener endpoint, and the emitter is not reported occluded. -/
theorem occlusion_endpoint_cex :
    hypot ((0 : ℝ) - 0.4998) ((0 : ℝ) - 0) ≤ 0.5 ∧
    ¬ occludedFlag 0.5002 0 0.4998 0
        [{ id := "zone-d", label := "d", x := 0, z := 0, radius := 0.5 }] [] := by
  constructor
  · exact hypot_le _ _ _ (by norm_num) (by norm_num)
  · rintro (⟨zone, hz, hc⟩ | ⟨wall, hw, _⟩)
    · simp only [List.mem_singleton] at hz
      subst hz
      unfold circleLineIntersection at hc
      rw [if_pos (by norm_num)] at hc
      dsimp only at hc
      have hgt : (0.5 : ℝ) < hypot ((0 : ℝ) - 0.5002) ((0 : ℝ) - 0) :=
        lt_hypot _ _ _ (by norm_num) (by norm_num)
      linarith
    · simp at hw

/-- C10 (amended): the wall sampler always evaluates both endpoints
(`t = 0` and `t = 1` among its 19 sample points), so a listener or emitter
inside a wall rectangle is always reported occluded; a listener within a
zone's radius of its center is always reported occluded; and an emitter within
a zone's radius is reported occluded provided the listener–emitter segment is
non-degenerate (squared length at least `1e-6`) — for degenerate segments the
zone test only examines the listener endpoint. -/
theorem occlusion_endpoint_tests (lx lz ex ez : ℝ)
    (zones : List CollisionZone) (walls : List Wall) :
    ((∃ wall ∈ walls,
        wall.x - wall.width / 2 ≤ lx ∧ lx ≤ wall.x + wall.width / 2 ∧
        wall.z - wall.height / 2 ≤ lz ∧ lz ≤ wall.z + wall.height / 2) →
      occludedFlag lx lz ex ez zones walls) ∧
    ((∃ wall ∈ walls,
        wall.x - wall.width / 2 ≤ ex ∧ ex ≤ wall.x + wall.width / 2 ∧
        wall.z - wall.height / 2 ≤ ez ∧ ez ≤ wall.z + wall.height / 2) →
      occludedFlag lx lz ex ez zones walls) ∧
    ((∃ zone ∈ zones, hypot (zone.x - lx) (zone.z - lz) ≤ zone.radius) →
      occludedFlag lx lz ex ez zones walls) ∧
    (1e-6 ≤ (ex - lx) * (ex - lx) + (ez - lz) * (ez - lz) →
      (∃ zone ∈ zones, hypot (zone.x - ex) (zone.z - ez) ≤ zone.radius) →
      occludedFlag lx lz ex ez zones walls) := by
  refine ⟨?_, ?_, ?_, ?_⟩
  · rintro ⟨wall, hw, hrect⟩
    exact Or.inr ⟨wall, hw, lineIntersectsWall_endpoint_a lx lz ex ez wall hrect⟩
  · rintro ⟨wall, hw, hrect⟩
    exact Or.inr ⟨wall, hw, lineIntersectsWall_endpoint_b lx lz ex ez wall hrect⟩
  · rintro ⟨zone, hz, hin⟩
    exact Or.inl ⟨zone, hz,
      circleLine_of_endpoint_a lx lz ex ez zone.x zone.z zone.radius hin⟩
  · rintro hnd ⟨zone, hz, hin⟩
    refine Or.inl ⟨zone, hz,
      circleLine_of_segment_point lx lz ex ez zone.x zone.z zone.radius 1 hnd
        (by norm_num) le_rfl ?_⟩
    have e1 : zone.x - (lx + (ex - lx) * 1) = zone.x - ex := by ring
    have e2 : zone.z - (lz + (ez - lz) * 1) = zone.z - ez := by ring
    rw [e1, e2]
    exact hin

/-- Witness for C10 at concrete inputs: a listener standing inside
`scenarioWall` is occluded, and an emitter standing inside `sampleZone` at
the end of a long (non-degenerate) segment is occluded. -/
theorem occlusion_endpoint_tests_witness :
    occludedFlag 0 0 5 5 [] [scenarioWall] ∧
    occludedFlag (-5) 3 0 3 [sampleZone] [] := by
  constructor
  · refine (occlusion_endpoint_tests 0 0 5 5 [] [scenarioWall]).1
      ⟨scenarioWall, by simp, ?_⟩
    unfold scenarioWall
    norm_num
  · refine (occlusion_endpoint_tests (-5) 3 0 3 [sampleZone] []).2.2.2 (by norm_num)
      ⟨sampleZone, by simp, ?_⟩
    unfold sampleZone
    dsimp only
    exact hypot_le _ _ _ (by norm_num) (by norm_num)

/-! ## Evaluation helpers for the walk tick at heading 0 -/

lemma truncTowardZero_zero : truncTowardZero 0 = 0 := by
  unfold truncTowardZero
  rw [if_pos le_rfl]
  norm_num

lemma wrapDegrees_zero : wrapDegrees 0 = 0 := by
  unfold wrapDegrees
  rw [show (0 : ℝ) / 360 = 0 by norm_num, truncTowardZero_zero]
  norm_num

lemma toRadians_zero : toRadians 0 = 0 := by
  unfold toRadians
  ring

/-- No collision with the seed world anywhere on the short segment the
listener can reach straight below the origin. -/
lemma not_collidesAt_initial_axis (z : ℝ) (hz0 : -0.5 ≤ z) (hz1 : z ≤ 0) :
    ¬ collidesAt 0 z PLAYER_RADIUS_M INITIAL_ZONES INITIAL_WALLS := by
  rintro (h | ⟨zone, hzm, hb⟩ | ⟨wall, hwm, hb⟩)
  · have hle : hypot 0 z ≤ 0.5 := hypot_le _ _ _
      (by nlinarith [mul_nonneg (by linarith : (0 : ℝ) ≤ z + 0.5) (by linarith : (0 : ℝ) ≤ -z)])
      (by norm_num)
    unfold PLAYER_RADIUS_M WORLD_RADIUS_M at h
    linarith
  · unfold INITIAL_ZONES at hzm
    simp only [List.mem_cons, List.not_mem_nil, or_false] at hzm
    unfold zoneBlocks PLAYER_RADIUS_M at hb
    rcases hzm with rfl | rfl | rfl
    · dsimp only at hb
      have hgt := lt_hypot (0 - (-4.8)) (z - (-1.5)) 2.05 (by norm_num)
        (by nlinarith [mul_self_nonneg (z - (-1.5))])
      linarith
    · dsimp only at hb
      have hgt := lt_hypot ((0 : ℝ) - 5) (z - 4.5) 2.35 (by norm_num)
        (by nlinarith [mul_self_nonneg (z - 4.5)])
      linarith
    · dsimp only at hb
      have hgt := lt_hypot ((0 : ℝ) - 3.4) (z - (-6.8)) 1.8 (by norm_num)
        (by nlinarith [mul_self_nonneg (z - (-6.8))])
      linarith
  · unfold INITIAL_WALLS at hwm
    simp only [List.mem_cons, List.not_mem_nil, or_false] at hwm
    unfold wallBlocks PLAYER_RADIUS_M at hb
    rcases hwm with rfl | rfl | rfl
    · dsimp only at hb
      have h21 := hb.2.1
      norm_num at h21
    · dsimp only at hb
      have h1 := hb.1
      norm_num at h1
    · dsimp only at hb
      have h1 := hb.1
      norm_num at h1

/-- Evaluation of the listener integrator step at the seed pose with
full-forward intent: heading stays 0 and the listener moves straight along
`-Z` by `MOVE_SPEED_MPS * delta`, provided the target is collision-free. -/
lemma listenerStep_forward_origin (delta : ℝ)
    (hnc : ¬ collidesAt 0 (-(MOVE_SPEED_MPS * delta)) PLAYER_RADIUS_M
      INITIAL_ZONES INITIAL_WALLS) :
    listenerStep INITIAL_LISTENER 1 0 0 delta INITIAL_ZONES INITIAL_WALLS =
      { x := 0, z := -(MOVE_SPEED_MPS * delta), headingDeg := 0 } := by
  unfold listenerStep INITIAL_LISTENER
  dsimp only
  rw [show (0 : ℝ) + 0 * TURN_SPEED_DEG_PER_SEC * delta = 0 by ring,
    wrapDegrees_zero, toRadians_zero, Real.sin_zero, Real.cos_zero,
    show (0 : ℝ) + (1 * 0 + 0 * 1) * (MOVE_SPEED_MPS * delta) = 0 by ring,
    show (0 : ℝ) + (1 * -1 + 0 * 0) * (MOVE_SPEED_MPS * delta) =
      -(MOVE_SPEED_MPS * delta) by ring]
  rw [if_neg hnc]

/-! ## C6 (corrected): scenario A and the delta clamp -/

/-- C6 counterexample: with the seed world, heading 0, full-forward intent and
raw elapsed time `dt = 0.1 s`, the tick clamps the delta to 0.04 s and moves
the listener to exactly `(0, -0.11)`, which is not approximately
`(0, -0.275)` — the gap is 0.165 m, 60% of the claimed displacement. -/
theorem scenarioA_cex :
    walkTick INITIAL_LISTENER 1 0 0 0.1 INITIAL_ZONES INITIAL_WALLS =
      { x := 0, z := -0.11, headingDeg := 0 } ∧
    (0.16 : ℝ) < |(-0.11 : ℝ) - (-0.275)| := by
  constructor
  · unfold walkTick
    rw [if_pos (Or.inl (by norm_num : (1 : ℝ) ≠ 0))]
    rw [show min (0.1 : ℝ) 0.04 = 0.04 from min_eq_right (by norm_num)]
    have hnc := not_collidesAt_initial_axis (-(MOVE_SPEED_MPS * 0.04))
      (by norm_num [MOVE_SPEED_MPS]) (by norm_num [MOVE_SPEED_MPS])
    rw [listenerStep_forward_origin 0.04 hnc]
    norm_num [MOVE_SPEED_MPS]
  · rw [show (-0.11 : ℝ) - (-0.275) = 0.165 by norm_num]
    rw [abs_of_pos (by norm_num)]
    norm_num

/-- C6 (amended): with raw elapsed time 0.1 s the tick clamps the delta to
0.04 s and moves the listener from the seed pose to exactly `(0, -0.11)`
(forward maps to `-Z` at heading 0); only the unclamped integrator step with
delta 0.1 s would produce the spec's `(0, -0.275)`. -/
theorem scenarioA_amended :
    walkTick INITIAL_LISTENER 1 0 0 0.1 INITIAL_ZONES INITIAL_WALLS =
      { x := 0, z := -0.11, headingDeg := 0 } ∧
    listenerStep INITIAL_LISTENER 1 0 0 0.1 INITIAL_ZONES INITIAL_WALLS =
      { x := 0, z := -0.275, headingDeg := 0 } := by
  constructor
  · unfold walkTick
    rw [if_pos (Or.inl (by norm_num : (1 : ℝ) ≠ 0))]
    rw [show min (0.1 : ℝ) 0.04 = 0.04 from min_eq_right (by norm_num)]
    have hnc := not_collidesAt_initial_axis (-(MOVE_SPEED_MPS * 0.04))
      (by norm_num [MOVE_SPEED_MPS]) (by norm_num [MOVE_SPEED_MPS])
    rw [listenerStep_forward_origin 0.04 hnc]
    norm_num [MOVE_SPEED_MPS]
  · have hnc := not_collidesAt_initial_axis (-(MOVE_SPEED_MPS * 0.1))
      (by norm_num [MOVE_SPEED_MPS]) (by norm_num [MOVE_SPEED_MPS])
    rw [listenerStep_forward_origin 0.1 hnc]
    norm_num [MOVE_SPEED_MPS]

/-! ## C5 (corrected): emitter bounce physics -/

/-- Wall to the right of the origin whose expanded rectangle starts at
`x = 0.02`: it catches the combined and X-only moves of `cexEmitter` but not
the Z-only move. -/
def cexWallA : Wall := { id := "wall-a", x := 0.62, z := 0, width := 0.5, height := 0.5 }

/-- Wall to the left of the origin whose expanded rectangle ends at
`x = -0.02`: it catches the recomputed combined position after the `vx` flip. -/
def cexWallB : Wall := { id := "wall-b", x := -0.62, z := 0.04, width := 0.5, height := 0.5 }

/-- A moving emitter at the origin heading diagonally into `cexWallA`. -/
def cexEmitter : SoundEmitter :=
  { id := "emitter-c", name := "Bouncer", x := 0, z := 0, y := 0, frequency := 500,
    gain := 0.1, waveform := .sine, color := "#111111", moving := true,
    vx := 1, vz := 1 }

lemma cex_collides_combined :
    collidesAt 0.04 0.04 EMITTER_RADIUS_M [] [cexWallA, cexWallB] := by
  refine Or.inr (Or.inr ⟨cexWallA, by simp, ?_⟩)
  unfold wallBlocks cexWallA EMITTER_RADIUS_M
  norm_num

lemma cex_collides_x_only :
    collidesAt 0.04 0 EMITTER_RADIUS_M [] [cexWallA, cexWallB] := by
  refine Or.inr (Or.inr ⟨cexWallA, by simp, ?_⟩)
  unfold wallBlocks cexWallA EMITTER_RADIUS_M
  norm_num

lemma cex_not_collides_z_only :
    ¬ collidesAt 0 0.04 EMITTER_RADIUS_M [] [cexWallA, cexWallB] := by
  rintro (h | ⟨zone, hz, _⟩ | ⟨wall, hw, hb⟩)
  · have hle : hypot 0 0.04 ≤ 1 := hypot_le _ _ _ (by norm_num) (by norm_num)
    unfold EMITTER_RADIUS_M WORLD_RADIUS_M at h
    linarith
  · simp at hz
  · simp only [List.mem_cons, List.not_mem_nil, or_false] at hw
    unfold wallBlocks EMITTER_RADIUS_M at hb
    rcases hw with rfl | rfl
    · unfold cexWallA at hb
      dsimp only at hb
      have h1 := hb.1
      norm_num at h1
    · unfold cexWallB at hb
      dsimp only at hb
      have h21 := hb.2.1
      norm_num at h21

lemma cex_collides_postflip :
    collidesAt (-0.04) 0.04 EMITTER_RADIUS_M [] [cexWallA, cexWallB] := by
  refine Or.inr (Or.inr ⟨cexWallB, by simp, ?_⟩)
  unfold wallBlocks cexWallB EMITTER_RADIUS_M
  norm_num

/-- C5 counterexample: for `cexEmitter` the combined move collides, the X-only
partial move collides and the Z-only partial move does not, yet after one
integration step `vx` is back to its original value (not sign-flipped) and
`vz` has been flipped — because the recomputed combined position after the
first flip still collided, so the full-bounce branch flipped both components
again. -/
theorem emitter_bounce_cex :
    collidesAt (cexEmitter.x + cexEmitter.vx * 0.04) (cexEmitter.z + cexEmitter.vz * 0.04)
      EMITTER_RADIUS_M [] [cexWallA, cexWallB] ∧
    collidesAt (cexEmitter.x + cexEmitter.vx * 0.04) cexEmitter.z
      EMITTER_RADIUS_M [] [cexWallA, cexWallB] ∧
    ¬ collidesAt cexEmitter.x (cexEmitter.z + cexEmitter.vz * 0.04)
      EMITTER_RADIUS_M [] [cexWallA, cexWallB] ∧
    (emitterStep cexEmitter 0.04 [] [cexWallA, cexWallB]).vx = cexEmitter.vx ∧
    (emitterStep cexEmitter 0.04 [] [cexWallA, cexWallB]).vx ≠ -cexEmitter.vx ∧
    (emitterStep cexEmitter 0.04 [] [cexWallA, cexWallB]).vz = -cexEmitter.vz := by
  have heval : emitterStep cexEmitter 0.04 [] [cexWallA, cexWallB] =
      { cexEmitter with x := 0.04, z := -0.04, vx := 1, vz := -1 } := by
    unfold emitterStep cexEmitter
    rw [if_neg (by norm_num)]
    dsimp only
    rw [show (0 : ℝ) + 1 * 0.04 = 0.04 by norm_num]
    rw [if_pos cex_collides_combined]
    rw [if_pos cex_collides_x_only, if_pos cex_collides_x_only]
    rw [if_neg cex_not_collides_z_only, if_neg cex_not_collides_z_only]
    rw [show (0 : ℝ) + -1 * 0.04 = -0.04 by norm_num]
    rw [if_pos cex_collides_postflip]
    norm_num
  refine ⟨?_, ?_, ?_, ?_, ?_, ?_⟩
  · unfold cexEmitter
    dsimp only
    rw [show (0 : ℝ) + 1 * 0.04 = 0.04 by norm_num]
    exact cex_collides_combined
  · unfold cexEmitter
    dsimp only
    rw [show (0 : ℝ) + 1 * 0.04 = 0.04 by norm_num]
    exact cex_collides_x_only
  · unfold cexEmitter
    dsimp only
    rw [show (0 : ℝ) + 1 * 0.04 = 0.04 by norm_num]
    exact cex_not_collides_z_only
  · rw [heval]
    norm_num [cexEmitter]
  · rw [heval]
    norm_num [cexEmitter]
  · rw [heval]
    norm_num [cexEmitter]

/-- C5 (amended): when the combined move collides, the X-only partial move
collides, the Z-only partial move does not, and the recomputed combined
position after the `vx` flip is collision-free, one integration step leaves
`vx` sign-flipped, `vz` unchanged and the velocity magnitude unchanged; and
unconditionally, every velocity update performed by the emitter step preserves
the velocity magnitude (only sign flips, never rescaling). -/
theorem emitter_bounce_x_only (emitter : SoundEmitter) (delta : ℝ)
    (zones : List CollisionZone) (walls : List Wall)
    (hmoving : emitter.moving = true)
    (hcomb : collidesAt (emitter.x + emitter.vx * delta) (emitter.z + emitter.vz * delta)
      EMITTER_RADIUS_M zones walls)
    (hx : collidesAt (emitter.x + emitter.vx * delta) emitter.z
      EMITTER_RADIUS_M zones walls)
    (hz : ¬ collidesAt emitter.x (emitter.z + emitter.vz * delta)
      EMITTER_RADIUS_M zones walls)
    (hpost : ¬ collidesAt (emitter.x + -emitter.vx * delta) (emitter.z + emitter.vz * delta)
      EMITTER_RADIUS_M zones walls) :
    ((emitterStep emitter delta zones walls).vx = -emitter.vx ∧
     (emitterStep emitter delta zones walls).vz = emitter.vz ∧
     (emitterStep emitter delta zones walls).vx * (emitterStep emitter delta zones walls).vx +
       (emitterStep emitter delta zones walls).vz * (emitterStep emitter delta zones walls).vz =
       emitter.vx * emitter.vx + emitter.vz * emitter.vz) ∧
    (∀ (e : SoundEmitter) (d : ℝ) (zs : List CollisionZone) (ws : List Wall),
      (emitterStep e d zs ws).vx * (emitterStep e d zs ws).vx +
        (emitterStep e d zs ws).vz * (emitterStep e d zs ws).vz =
        e.vx * e.vx + e.vz * e.vz) := by
  have hmag : ∀ (e : SoundEmitter) (d : ℝ) (zs : List CollisionZone) (ws : List Wall),
      (emitterStep e d zs ws).vx * (emitterStep e d zs ws).vx +
        (emitterStep e d zs ws).vz * (emitterStep e d zs ws).vz =
        e.vx * e.vx + e.vz * e.vz := by
    intro e d zs ws
    unfold emitterStep
    dsimp only
    by_cases hm : e.moving = false
    · rw [if_pos hm]
    · rw [if_neg hm]
      by_cases h0 : collidesAt (e.x + e.vx * d) (e.z + e.vz * d) EMITTER_RADIUS_M zs ws
      · rw [if_pos h0]
        by_cases hcx : collidesAt (e.x + e.vx * d) e.z EMITTER_RADIUS_M zs ws
        · rw [if_pos hcx, if_pos hcx]
          by_cases hcz : collidesAt e.x (e.z + e.vz * d) EMITTER_RADIUS_M zs ws
          · rw [if_pos hcz, if_pos hcz]
            by_cases h2 : collidesAt (e.x + -e.vx * d) (e.z + -e.vz * d)
                EMITTER_RADIUS_M zs ws
            · rw [if_pos h2]
              dsimp only
              ring
            · rw [if_neg h2]
              dsimp only
              ring
          · rw [if_neg hcz, if_neg hcz]
            by_cases h2 : collidesAt (e.x + -e.vx * d) (e.z + e.vz * d)
                EMITTER_RADIUS_M zs ws
            · rw [if_pos h2]
              dsimp only
              ring
            · rw [if_neg h2]
              dsimp only
              ring
        · rw [if_neg hcx, if_neg hcx]
          by_cases hcz : collidesAt e.x (e.z + e.vz * d) EMITTER_RADIUS_M zs ws
          · rw [if_pos hcz, if_pos hcz]
            by_cases h2 : collidesAt (e.x + e.vx * d) (e.z + -e.vz * d)
                EMITTER_RADIUS_M zs ws
            · rw [if_pos h2]
              dsimp only
              ring
            · rw [if_neg h2]
              dsimp only
              ring
          · rw [if_neg hcz, if_neg hcz]
            by_cases h2 : collidesAt (e.x + e.vx * d) (e.z + e.vz * d)
                EMITTER_RADIUS_M zs ws
            · rw [if_pos h2]
              dsimp only
              ring
            · rw [if_neg h2]
              try dsimp only
              try ring
      · rw [if_neg h0]
  have heval : emitterStep emitter delta zones walls =
      { emitter with x := emitter.x + -emitter.vx * delta,
                     z := emitter.z + emitter.vz * delta,
                     vx := -emitter.vx, vz := emitter.vz } := by
    unfold emitterStep
    rw [hmoving]
    rw [if_neg (by simp)]
    dsimp only
    rw [if_pos hcomb]
    rw [if_pos hx, if_pos hx]
    rw [if_neg hz, if_neg hz]
    rw [if_neg hpost]
  rw [heval]
  exact ⟨⟨rfl, rfl, by dsimp only; ring⟩, hmag⟩

/-- Witness for C5 at a concrete input: with only `cexWallA` present the
post-flip position is free, so `cexEmitter` bounces along X exactly as the
amended claim states. -/
theorem emitter_bounce_x_only_witness :
    (emitterStep cexEmitter 0.04 [] [cexWallA]).vx = -cexEmitter.vx ∧
    (emitterStep cexEmitter 0.04 [] [cexWallA]).vz = cexEmitter.vz ∧
    (emitterStep cexEmitter 0.04 [] [cexWallA]).vx *
        (emitterStep cexEmitter 0.04 [] [cexWallA]).vx +
      (emitterStep cexEmitter 0.04 [] [cexWallA]).vz *
        (emitterStep cexEmitter 0.04 [] [cexWallA]).vz =
      cexEmitter.vx * cexEmitter.vx + cexEmitter.vz * cexEmitter.vz := by
  have hcomb : collidesAt (cexEmitter.x + cexEmitter.vx * 0.04)
      (cexEmitter.z + cexEmitter.vz * 0.04) EMITTER_RADIUS_M [] [cexWallA] := by
    refine Or.inr (Or.inr ⟨cexWallA, by simp, ?_⟩)
    unfold wallBlocks cexWallA cexEmitter EMITTER_RADIUS_M
    norm_num
  have hx : collidesAt (cexEmitter.x + cexEmitter.vx * 0.04) cexEmitter.z
      EMITTER_RADIUS_M [] [cexWallA] := by
    refine Or.inr (Or.inr ⟨cexWallA, by simp, ?_⟩)
    unfold wallBlocks cexWallA cexEmitter EMITTER_RADIUS_M
    norm_num
  have hz : ¬ collidesAt cexEmitter.x (cexEmitter.z + cexEmitter.vz * 0.04)
      EMITTER_RADIUS_M [] [cexWallA] := by
    rintro (h | ⟨zone, hzm, _⟩ | ⟨wall, hw, hb⟩)
    · have hle : hypot cexEmitter.x (cexEmitter.z + cexEmitter.vz * 0.04) ≤ 1 :=
        hypot_le _ _ _ (by norm_num [cexEmitter]) (by norm_num)
      unfold EMITTER_RADIUS_M WORLD_RADIUS_M at h
      linarith
    · simp at hzm
    · simp only [List.mem_cons, List.not_mem_nil, or_false] at hw
      subst hw
      unfold wallBlocks cexWallA cexEmitter EMITTER_RADIUS_M at hb
      dsimp only at hb
      have h1 := hb.1
      norm_num at h1
  have hpost : ¬ collidesAt (cexEmitter.x + -cexEmitter.vx * 0.04)
      (cexEmitter.z + cexEmitter.vz * 0.04) EMITTER_RADIUS_M [] [cexWallA] := by
    rintro (h | ⟨zone, hzm, _⟩ | ⟨wall, hw, hb⟩)
    · have hle : hypot (cexEmitter.x + -cexEmitter.vx * 0.04)
          (cexEmitter.z + cexEmitter.vz * 0.04) ≤ 1 :=
        hypot_le _ _ _ (by norm_num [cexEmitter]) (by norm_num)
      unfold EMITTER_RADIUS_M WORLD_RADIUS_M at h
      linarith
    · simp at hzm
    · simp only [List.mem_cons, List.not_mem_nil, or_false] at hw
      subst hw
      unfold wallBlocks cexWallA cexEmitter EMITTER_RADIUS_M at hb
      dsimp only at hb
      have h1 := hb.1
      norm_num at h1
  exact (emitter_bounce_x_only cexEmitter 0.04 [] [cexWallA] rfl hcomb hx hz hpost).1

/-! ## C7 (corrected): adding an emitter near the world boundary -/

/-- Fixed random draws used when exercising the add-emitter flow. -/
def sampleDraws : RandomDraws :=
  { y := 0, frequency := 500, gain := 0.1, waveform := .sine, color := "#222222",
    moving := false, vx := 0, vz := 0 }

/-- The double-click at canvas pixel `(643.4925, 717.99)` requests the world
point `(9.9, 13.2)` — exactly 16.5 m from the origin. -/
lemma canvasToPoint_scenarioB :
    canvasToPoint 643.4925 717.99 CANVAS_SIZE = (9.9, 13.2) := by
  unfold canvasToPoint CANVAS_SIZE WORLD_RADIUS_M clamp
  dsimp only
  rw [show (643.4925 - 840 / 2) / (840 * 0.43) * 16 = (9.9 : ℝ) by norm_num,
    show (717.99 - 840 / 2) / (840 * 0.43) * 16 = (13.2 : ℝ) by norm_num]
  rw [max_eq_right (by norm_num : (-16 : ℝ) ≤ 9.9),
    min_eq_right (by norm_num : (9.9 : ℝ) ≤ 16),
    max_eq_right (by norm_num : (-16 : ℝ) ≤ 13.2),
    min_eq_right (by norm_num : (13.2 : ℝ) ≤ 16)]

lemma hypot_scenarioB : hypot 9.9 13.2 = 16.5 := by
  unfold hypot
  rw [show (9.9 * 9.9 + 13.2 * 13.2 : ℝ) = 16.5 * 16.5 by norm_num]
  exact Real.sqrt_mul_self (by norm_num)

/-- C7 counterexample: a double-click requesting a point at distance exactly
16.5 m from the origin (beyond the 16 m world radius, with both coordinates
inside `[-16, 16]` so the per-coordinate clamp leaves them unchanged) adds no
emitter at all: the emitter list is returned unchanged, so no stored position
clamped inside the boundary exists. -/
theorem addEmitter_clamp_cex :
    hypot (canvasToPoint 643.4925 717.99 CANVAS_SIZE).1
      (canvasToPoint 643.4925 717.99 CANVAS_SIZE).2 = 16.5 ∧
    onCanvasDoubleClick INITIAL_EMITTERS 4 643.4925 717.99 [] [] sampleDraws =
      INITIAL_EMITTERS := by
  have hcoll : collidesAt 9.9 13.2 EMITTER_RADIUS_M [] [] := by
    refine Or.inl ?_
    unfold EMITTER_RADIUS_M WORLD_RADIUS_M
    rw [hypot_scenarioB]
    norm_num
  constructor
  · rw [canvasToPoint_scenarioB]
    exact hypot_scenarioB
  · unfold onCanvasDoubleClick
    rw [canvasToPoint_scenarioB]
    dsimp only
    rw [if_neg (not_not_intro hcoll)]

/-- C7 (amended): the double-click add flow never stores an out-of-bounds
emitter — every emitter in the resulting list either was already present or
satisfies the world-disk bound `hypot(x, z) + EMITTER_RADIUS_M ≤
WORLD_RADIUS_M`; a colliding requested point (in particular any point beyond
the world radius) is rejected outright rather than clamped inside. -/
theorem doubleClick_in_bounds (emitters : List SoundEmitter) (counter : ℕ)
    (localX localY : ℝ) (zones : List CollisionZone) (walls : List Wall)
    (draws : RandomDraws) (e : SoundEmitter)
    (he : e ∈ onCanvasDoubleClick emitters counter localX localY zones walls draws) :
    e ∈ emitters ∨ hypot e.x e.z + EMITTER_RADIUS_M ≤ WORLD_RADIUS_M := by
  unfold onCanvasDoubleClick at he
  dsimp only at he
  split_ifs at he with h
  · exact Or.inl he
  · unfold addEmitter at he
    rw [List.mem_append] at he
    rcases he with he | he
    · exact Or.inl he
    · simp only [List.mem_singleton] at he
      subst he
      unfold collidesAt at h
      push_neg at h
      exact Or.inr h.1

/-- Witness for C7: a double-click at the canvas center adds an emitter at the
origin, and the theorem certifies it in bounds. -/
theorem doubleClick_in_bounds_witness :
    ∃ e ∈ onCanvasDoubleClick [] 1 420 420 [] [] sampleDraws,
      (e ∈ ([] : List SoundEmitter) ∨
        hypot e.x e.z + EMITTER_RADIUS_M ≤ WORLD_RADIUS_M) := by
  have hpoint : canvasToPoint 420 420 CANVAS_SIZE = (0, 0) := by
    unfold canvasToPoint CANVAS_SIZE WORLD_RADIUS_M clamp
    dsimp only
    rw [show (420 - 840 / 2 : ℝ) / (840 * 0.43) * 16 = 0 by norm_num]
    rw [max_eq_right (by norm_num : (-16 : ℝ) ≤ 0),
      min_eq_right (by norm_num : (0 : ℝ) ≤ 16)]
  have hfree : ¬ collidesAt 0 0 EMITTER_RADIUS_M [] [] := by
    rintro (h | ⟨zone, hz, _⟩ | ⟨wall, hw, _⟩)
    · have hle : hypot 0 0 ≤ 1 := hypot_le _ _ _ (by norm_num) (by norm_num)
      unfold EMITTER_RADIUS_M WORLD_RADIUS_M at h
      linarith
    · simp at hz
    · simp at hw
  have heval : onCanvasDoubleClick [] 1 420 420 [] [] sampleDraws =
      [{ id := "emitter-1", name := "Emitter 1", x := 0, z := 0, y := sampleDraws.y,
         frequency := sampleDraws.frequency, gain := sampleDraws.gain,
         waveform := sampleDraws.waveform, color := sampleDraws.color,
         moving := sampleDraws.moving, vx := sampleDraws.vx, vz := sampleDraws.vz }] := by
    unfold onCanvasDoubleClick
    rw [hpoint]
    dsimp only
    rw [if_pos hfree]
    unfold addEmitter
    rfl
  refine ⟨_, by rw [heval]; exact List.mem_singleton_self _, ?_⟩
  exact doubleClick_in_bounds [] 1 420 420 [] [] sampleDraws _
    (by rw [heval]; exact List.mem_singleton_self _)

/-! ## C8 (corrected): patch handling in the update operations -/

/-- A patch setting the frequency to 5000 Hz, far above the 1600 Hz maximum of
the frequency control. -/
def freqPatch : EmitterPatch := { frequency := some 5000 }

/-- C8 counterexample: patching `emitter-1` with frequency 5000 Hz — outside
the control's declared range `[180, 1600]` — stores 5000 verbatim: the update
operation performs no clamping. -/
theorem update_clamp_cex :
    ∃ e ∈ updateEmitter INITIAL_EMITTERS "emitter-1" freqPatch,
      e.id = "emitter-1" ∧ e.frequency = 5000 ∧ ¬ ((180 : ℝ) ≤ e.frequency ∧ e.frequency ≤ 1600) := by
  refine ⟨applyEmitterPatch
    { id := "emitter-1", name := "Drone A", x := -6, z := 5, y := 0, frequency := 470,
      gain := 0.16, waveform := .triangle, color := "#0f8c7c", moving := true,
      vx := 0.9, vz := -0.55 } freqPatch, ?_, ?_, ?_, ?_⟩
  · unfold updateEmitter INITIAL_EMITTERS
    simp only [List.map_cons, List.map_nil, if_true]
    exact List.mem_cons_self _ _
  · unfold applyEmitterPatch freqPatch
    rfl
  · unfold applyEmitterPatch freqPatch
    rfl
  · unfold applyEmitterPatch freqPatch
    dsimp only
    norm_num

/-- C8 (amended): the update operations apply patches verbatim and surface no
error: for an entity whose id matches, the exact field-wise merge of entity
and patch is stored, and every patched numeric field holds exactly the
supplied value, whatever it is — clamping is not performed by the update
operation (range enforcement lives in the UI controls and call sites). -/
theorem update_patch_verbatim (emitters : List SoundEmitter)
    (zones : List CollisionZone) (walls : List Wall) (id : String)
    (ep : EmitterPatch) (zp : ZonePatch) (wp : WallPatch) :
    (∀ e ∈ emitters, e.id = id →
        applyEmitterPatch e ep ∈ updateEmitter emitters id ep ∧
        (∀ v : ℝ, ep.frequency = some v → (applyEmitterPatch e ep).frequency = v) ∧
        (∀ v : ℝ, ep.gain = some v → (applyEmitterPatch e ep).gain = v) ∧
        (∀ v : ℝ, ep.y = some v → (applyEmitterPatch e ep).y = v)) ∧
    (∀ z ∈ zones, z.id = id →
        applyZonePatch z zp ∈ updateZone zones id zp ∧
        (∀ v : ℝ, zp.radius = some v → (applyZonePatch z zp).radius = v)) ∧
    (∀ w ∈ walls, w.id = id →
        applyWallPatch w wp ∈ updateWall walls id wp ∧
        (∀ v : ℝ, wp.width = some v → (applyWallPatch w wp).width = v) ∧
        (∀ v : ℝ, wp.height = some v → (applyWallPatch w wp).height = v)) := by
  refine ⟨fun e he hid => ⟨?_, ?_, ?_, ?_⟩, fun z hz hid => ⟨?_, ?_⟩,
    fun w hw hid => ⟨?_, ?_, ?_⟩⟩
  · unfold updateEmitter
    exact List.mem_map.mpr ⟨e, he, by rw [if_pos hid]⟩
  · intro v hv
    unfold applyEmitterPatch
    rw [hv]
    rfl
  · intro v hv
    unfold applyEmitterPatch
    rw [hv]
    rfl
  · intro v hv
    unfold applyEmitterPatch
    rw [hv]
    rfl
  · unfold updateZone
    exact List.mem_map.mpr ⟨z, hz, by rw [if_pos hid]⟩
  · intro v hv
    unfold applyZonePatch
    rw [hv]
    rfl
  · unfold updateWall
    exact List.mem_map.mpr ⟨w, hw, by rw [if_pos hid]⟩
  · intro v hv
    unfold applyWallPatch
    rw [hv]
    rfl
  · intro v hv
    unfold applyWallPatch
    rw [hv]
    rfl

/-- Witness for C8 at a concrete input: patching the seed zone `zone-1` with
radius 50 stores exactly radius 50. -/
theorem update_patch_verbatim_witness :
    applyZonePatch
        { id := "zone-1", label := "Concrete Pillar", x := -4.8, z := -1.5, radius := 1.6 }
        { radius := some 50 } ∈
      updateZone INITIAL_ZONES "zone-1" { radius := some 50 } ∧
    (applyZonePatch
        { id := "zone-1", label := "Concrete Pillar", x := -4.8, z := -1.5, radius := 1.6 }
        { radius := some 50 }).radius = 50 := by
  have h := (update_patch_verbatim [] INITIAL_ZONES [] "zone-1"
    {} { radius := some 50 } {}).2.1
    { id := "zone-1", label := "Concrete Pillar", x := -4.8, z := -1.5, radius := 1.6 }
    (by unfold INITIAL_ZONES; exact List.mem_cons_self _ _) rfl
  exact ⟨h.1, h.2 50 rfl⟩

/-! ## C9: audio reconciliation is exact and idempotent -/

lemma createMissingUnits_mem (emitters : List SoundEmitter) (keys : List String)
    (x : String) :
    x ∈ (createMissingUnits keys emitters).1 ↔
      x ∈ keys ∨ x ∈ emitters.map (fun e => e.id) := by
  induction emitters generalizing keys with
  | nil =>
    unfold createMissingUnits
    simp
  | cons e rest ih =>
    unfold createMissingUnits
    split_ifs with h
    · rw [ih]
      simp only [List.map_cons, List.mem_cons]
      constructor
      · rintro (hk | hr)
        · exact Or.inl hk
        · exact Or.inr (Or.inr hr)
      · rintro (hk | heq | hr)
        · exact Or.inl hk
        · exact Or.inl (heq ▸ h)
        · exact Or.inr hr
    · dsimp only
      rw [ih]
      simp only [List.mem_append, List.mem_singleton, List.map_cons, List.mem_cons]
      tauto

lemma createMissingUnits_nodup (emitters : List SoundEmitter) (keys : List String)
    (hnd : keys.Nodup) : (createMissingUnits keys emitters).1.Nodup := by
  induction emitters generalizing keys with
  | nil =>
    unfold createMissingUnits
    exact hnd
  | cons e rest ih =>
    unfold createMissingUnits
    split_ifs with h
    · exact ih keys hnd
    · dsimp only
      refine ih _ (List.Nodup.append hnd (List.nodup_singleton _) ?_)
      intro a ha hb
      rw [List.mem_singleton] at hb
      subst hb
      exact h ha

lemma createMissingUnits_complete (emitters : List SoundEmitter) (keys : List String)
    (h : ∀ e ∈ emitters, e.id ∈ keys) :
    createMissingUnits keys emitters = (keys, 0) := by
  induction emitters with
  | nil => rfl
  | cons e rest ih =>
    unfold createMissingUnits
    rw [if_pos (h e (List.mem_cons_self _ _))]
    exact ih fun e' he' => h e' (List.mem_cons_of_mem _ he')

/-- C9: after one reconciliation run the synthesis-unit key set holds exactly
the live emitter ids (one unit per live id, none for non-live ids, no
duplicates), and reconciling a second time with the same live set performs
zero creates and zero disposes, returning the key set unchanged. -/
theorem reconcile_exact_and_idempotent (keys : List String)
    (emitters : List SoundEmitter) (hnd : keys.Nodup) :
    (∀ id, id ∈ (reconcile keys emitters).1 ↔ id ∈ emitters.map (fun e => e.id)) ∧
    (reconcile keys emitters).1.Nodup ∧
    reconcile (reconcile keys emitters).1 emitters =
      ((reconcile keys emitters).1, 0, 0) := by
  have hmem : ∀ id, id ∈ (reconcile keys emitters).1 ↔
      id ∈ emitters.map (fun e => e.id) := by
    intro id
    unfold reconcile
    dsimp only
    rw [createMissingUnits_mem]
    simp only [List.mem_filter, decide_eq_true_eq]
    tauto
  refine ⟨hmem, ?_, ?_⟩
  · unfold reconcile
    dsimp only
    exact createMissingUnits_nodup _ _ (List.Nodup.filter _ hnd)
  · have hall : ∀ x ∈ (reconcile keys emitters).1,
        x ∈ emitters.map (fun e => e.id) := fun x hx => (hmem x).mp hx
    set K := (reconcile keys emitters).1 with hK
    have hfilter : List.filter
        (fun id => decide (id ∈ List.map (fun emitter => emitter.id) emitters)) K = K :=
      List.filter_eq_self.mpr fun a ha => by simpa using hall a ha
    have hdisp : List.filter
        (fun id => decide (id ∉ List.map (fun emitter => emitter.id) emitters)) K = [] := by
      rw [List.filter_eq_nil_iff]
      intro a ha
      simpa using hall a ha
    have hcreate : createMissingUnits K emitters = (K, 0) :=
      createMissingUnits_complete emitters K fun e he =>
        (hmem e.id).mpr (List.mem_map.mpr ⟨e, he, rfl⟩)
    unfold reconcile
    dsimp only
    rw [hfilter, hcreate, hdisp]
    rfl

/-- Witness for C9 at a concrete input: starting from a stale unit map holding
only the removed id `emitter-9`, one run over the seed emitters yields a key
set containing `emitter-1`, and the second run changes nothing and performs no
creates or disposes. -/
theorem reconcile_exact_and_idempotent_witness :
    (["emitter-9"] : List String).Nodup ∧
    "emitter-1" ∈ (reconcile ["emitter-9"] INITIAL_EMITTERS).1 ∧
    reconcile (reconcile ["emitter-9"] INITIAL_EMITTERS).1 INITIAL_EMITTERS =
      ((reconcile ["emitter-9"] INITIAL_EMITTERS).1, 0, 0) := by
  have hnd : (["emitter-9"] : List String).Nodup := List.nodup_singleton _
  have h := reconcile_exact_and_idempotent ["emitter-9"] INITIAL_EMITTERS hnd
  refine ⟨hnd, (h.1 "emitter-1").mpr ?_, h.2.2⟩
  unfold INITIAL_EMITTERS
  simp

end SonicWorld
